import Mathlib

/-!
Verification of the Meal_Planner repository (`plan_builder.py`).

The embedding models the pure logic of the source file:
  * date bucketing (`week_key`, `day_key`) used by `_records_to_plan_dict`
    and `get_plan_for_date`;
  * the nested `week -> day -> meals` plan dictionary;
  * `load_plan` / `save_plan_to_supabase` with the external store modelled
    as an explicit list of rows and external failures as explicit
    `Option String` error parameters (an exception raised by the client);
  * the CSV parsing in `build_plan` (strict `pd.read_csv`, falling back to
    the python engine with bad lines skipped), column normalisation and
    the Excel / Supabase save steps;
  * `_extract_text_from_gemini`, modelled over `List Char`.
-/

namespace MealPlanner

/-- A calendar date, as produced by `datetime.datetime.strptime(s, "%Y-%m-%d").date()`. -/
structure Date where
  year : Nat
  month : Nat
  day : Nat
deriving Repr, DecidableEq

def isLeap (y : Nat) : Bool :=
  (y % 4 == 0 && y % 100 != 0) || y % 400 == 0

def daysInMonth (y m : Nat) : Nat :=
  if m = 2 then (if isLeap y then 29 else 28)
  else if m = 4 ∨ m = 6 ∨ m = 9 ∨ m = 11 then 30
  else 31

/-- Month offsets of Sakamoto's weekday algorithm (index by month, January = 1). -/
def sakamotoOffset : Nat → Nat
  | 1 => 0 | 2 => 3 | 3 => 2 | 4 => 5 | 5 => 0 | 6 => 3
  | 7 => 5 | 8 => 1 | 9 => 4 | 10 => 6 | 11 => 2 | _ => 4

/-- Day of week of a (proleptic Gregorian) date, `0` = Sunday, as python's
`date.strftime("%A")` reports it. -/
def dayOfWeek (d : Date) : Nat :=
  let y := if d.month < 3 then d.year - 1 else d.year
  (y + y / 4 - y / 100 + y / 400 + sakamotoOffset d.month + d.day) % 7

/-- The lowercase full English weekday name, `date.strftime("%A").lower()`. -/
def weekdayName : Nat → String
  | 0 => "sunday" | 1 => "monday" | 2 => "tuesday" | 3 => "wednesday"
  | 4 => "thursday" | 5 => "friday" | _ => "saturday"

/-! Python string primitives, over the character list of the string (the
built-in `String.split`/`String.trim` are avoided since they do not
reduce under kernel evaluation). -/

/-- Model of `s.split(sep)` for a one-character separator, python semantics
(`"".split` gives one empty field, separators at the ends give empty
fields). -/
def splitOnChar (sep : Char) : List Char → List (List Char)
  | [] => [[]]
  | c :: rest =>
    if c = sep then [] :: splitOnChar sep rest
    else
      match splitOnChar sep rest with
      | [] => [[c]]
      | h :: t => (c :: h) :: t

/-- The whitespace characters python's `str.strip()` removes. -/
def isSpaceChar (c : Char) : Bool :=
  c == ' ' || c == '\t' || c == '\n' || c == '\r' || c == Char.ofNat 11 || c == Char.ofNat 12

/-- Model of `s.strip()`. -/
def stripChars (l : List Char) : List Char :=
  ((l.dropWhile isSpaceChar).reverse.dropWhile isSpaceChar).reverse

/-- Model of `s.split(sep)` on `String`. -/
def pySplit (sep : Char) (s : String) : List String :=
  (splitOnChar sep s.toList).map List.asString

/-- Model of `s.strip()` on `String`. -/
def pyStrip (s : String) : String :=
  (stripChars s.toList).asString

/-- Model of `s.lower()` on `String` (ASCII, as the column names here are). -/
def pyLower (s : String) : String :=
  (s.toList.map Char.toLower).asString

/-- The numeric value of a nonempty all-digit field, else `none` (the
acceptance test of one `strptime` directive). -/
def digitsVal? (l : List Char) : Option Nat :=
  if l ≠ [] ∧ l.all Char.isDigit
  then some (l.foldl (fun a c => a * 10 + (c.toNat - 48)) 0)
  else none

/-- Model of `datetime.datetime.strptime(s, "%Y-%m-%d")`: the year is exactly four
digits, month and day one or two digits, and the values must form a real
calendar date (python's `datetime` also requires `1 <= year`). -/
def parseDate (s : String) : Option Date :=
  match splitOnChar '-' s.toList with
  | [ys, ms, ds] =>
    match digitsVal? ys, digitsVal? ms, digitsVal? ds with
    | some y, some m, some d =>
      if ys.length = 4 ∧ (1 ≤ ms.length ∧ ms.length ≤ 2) ∧ (1 ≤ ds.length ∧ ds.length ≤ 2)
          ∧ 1 ≤ y ∧ (1 ≤ m ∧ m ≤ 12) ∧ (1 ≤ d ∧ d ≤ daysInMonth y m)
      then some ⟨y, m, d⟩ else none
    | _, _, _ => none
  | _ => none

/-- One meal entry as `_records_to_plan_dict` builds it: exactly the five
fields taken from a store row with `row.get(key, "")`. -/
structure MealEntry where
  meal_type : String
  item : String
  method : String
  prep : String
  quantity : String
deriving Repr, DecidableEq

/-- The data fields of a store row or of an insert record
(`df.to_dict(orient="records")`): a missing key is `none`. -/
structure RowData where
  date : Option String
  meal_type : Option String
  item : Option String
  method : Option String
  prep : Option String
  quantity : Option String
deriving Repr, DecidableEq

/-- A row of the `meal_plan` table: the store's `id` column plus the data
fields. -/
structure Row where
  id : Nat
  data : RowData
deriving Repr, DecidableEq

/-- The `meal_entry` dict built from a row: `row.get(k, "")` for the five
meal fields; the date is not among them. -/
def mealEntryOf (r : RowData) : MealEntry :=
  { meal_type := r.meal_type.getD ""
    item := r.item.getD ""
    method := r.method.getD ""
    prep := r.prep.getD ""
    quantity := r.quantity.getD "" }

/-- The nested dict `plan[week_key][day_name]`, as insertion-ordered
association lists (python dicts preserve insertion order). -/
abbrev DayDict := List (String × List MealEntry)
abbrev Plan := List (String × DayDict)

/-- Python dict lookup `d.get(k)`. -/
def lookupA {α : Type} : List (String × α) → String → Option α
  | [], _ => none
  | (k', v) :: rest, k => if k' = k then some v else lookupA rest k

/-- Model of `plan[week_key][day_name].append(e)` on the inner (day) dict of a
`defaultdict(list)`. -/
def appendDay : DayDict → String → MealEntry → DayDict
  | [], dk, e => [(dk, [e])]
  | (k, es) :: rest, dk, e =>
    if k = dk then (k, es ++ [e]) :: rest else (k, es) :: appendDay rest dk e

/-- Model of `plan[week_key][day_name].append(e)` on the outer
`defaultdict(lambda: defaultdict(list))`. -/
def appendEntry : Plan → String → String → MealEntry → Plan
  | [], wk, dk, e => [(wk, [(dk, [e])])]
  | (k, dd) :: rest, wk, dk, e =>
    if k = wk then (k, appendDay dd dk e) :: rest
    else (k, dd) :: appendEntry rest wk dk e

/-- Model of `plan.get(wk, {}).get(dk, [])`. -/
def cellList (p : Plan) (wk dk : String) : List MealEntry :=
  (lookupA ((lookupA p wk).getD []) dk).getD []

/-- Model of `plan.get(wk, {}).get(dk)` without defaults: `none` when the cell is
absent. -/
def cellOf (p : Plan) (wk dk : String) : Option (List MealEntry) :=
  (lookupA p wk).bind (fun dd => lookupA dd dk)

/-- The body of the per-row `try` of `_records_to_plan_dict`: parse the
row's date, compute `day_name`, `week_num`, `week_key` and the
`meal_entry`; `none` models the caught per-row exception (missing date
value, i.e. `None.strftime` raising, or `strptime` raising on a non-ISO
string), after which the row is skipped with a printed warning. -/
def recBucketEntry (r : RowData) : Option (String × String × MealEntry) :=
  match r.date with
  | none => none
  | some s =>
    match parseDate s with
    | none => none
    | some row_date =>
      let day_name := weekdayName (dayOfWeek row_date)
      let week_num := (row_date.day - 1) / 7 + 1
      let week_key := "week" ++ toString week_num
      some (week_key, day_name, mealEntryOf r)

def rowBucketEntry (r : Row) : Option (String × String × MealEntry) :=
  recBucketEntry r.data

/-- One iteration of the `for row in records` loop of
`_records_to_plan_dict`. -/
def planStep (p : Plan) (r : Row) : Plan :=
  match rowBucketEntry r with
  | none => p
  | some (wk, dk, e) => appendEntry p wk dk e

/-- Model of `_records_to_plan_dict(records)`. -/
def recordsToPlanDict (records : List Row) : Plan :=
  records.foldl planStep []

/-- Model of `load_plan()`: the fetch `supabase.table("meal_plan").select("*").execute()`
is modelled by its outcome, `Except.error` being a raised exception, which
the surrounding `try` converts to the empty plan.  The source returns
`plan` when it is truthy and `{}` otherwise. -/
def loadPlan (fetch : Except String (List Row)) : Plan :=
  match fetch with
  | .error _ => []
  | .ok records =>
    let plan := recordsToPlanDict records
    if plan.isEmpty then [] else plan

/-- Model of `get_plan_for_date(date, plan)`. -/
def getPlanForDate (date : Date) (plan : Plan) : List MealEntry :=
  let day_name := weekdayName (dayOfWeek date)
  let week_num := (date.day - 1) / 7 + 1
  let week_key := "week" ++ toString week_num
  (lookupA ((lookupA plan week_key).getD []) day_name).getD []

/-- The status/message dict returned by `save_plan_to_supabase` and
`build_plan`. -/
structure BuildResult where
  status : String
  message : String
deriving Repr, DecidableEq

/-- The store's insert: each inserted record receives a store-assigned id
(`ids` maps the position among the inserted records to the generated id;
the grouping logic never reads it). -/
def insertRows (ids : Nat → Nat) : Nat → List RowData → List Row
  | _, [] => []
  | i, r :: rs => ⟨ids i, r⟩ :: insertRows ids (i + 1) rs

/-- Model of `save_plan_to_supabase(df)` acting on the record list
`df.to_dict(orient="records")` (the `df.fillna("")` of the source is part
of the frame-to-records conversion below).  The delete is
`supabase.table("meal_plan").delete().neq("id", 0).execute()`: it removes
exactly the rows whose id differs from 0.  `deleteErr` / `insertErr`
model exceptions raised by the two client calls; either lands in the
`except` branch, which returns an error dict instead of raising.  A
failure of the insert still leaves the table cleared. -/
def savePlanToSupabase (store : List Row) (records : List RowData)
    (deleteErr insertErr : Option String) (ids : Nat → Nat) :
    List Row × BuildResult :=
  match deleteErr with
  | some e => (store, ⟨"error", "Supabase insert failed: " ++ e⟩)
  | none =>
    let cleared := store.filter (fun r => r.id == 0)
    match insertErr with
    | some e => (cleared, ⟨"error", "Supabase insert failed: " ++ e⟩)
    | none =>
      (cleared ++ insertRows ids 0 records,
        ⟨"success", "Inserted " ++ toString records.length ++ " rows into Supabase."⟩)

/-! CSV parsing and the DataFrame of `build_plan`

`pd.read_csv` is modelled in its configuration of the source: fields are
comma-separated with the default double-quote quoting (a quoted field may
contain separators and newlines, a doubled quote is a literal quote, an
unterminated quote at end of input is a parse error), blank lines are
skipped, and the first remaining line is the header.  The table width is
the header width unless the first data row is wider: then pandas infers
the extra leading columns to be an implicit index (for both engines) and
the width is that of the first data row.  A data row wider than the table
is a parse error for the strict (C-engine) call and is dropped by the
fallback call (`engine="python", on_bad_lines="skip"`); a narrower row is
kept with its missing trailing cells as NaN (`none`). -/

/-- A DataFrame: column names and rows of cells, a cell being `none` for
NaN. -/
structure Frame where
  header : List String
  rows : List (List (Option String))
deriving Repr, DecidableEq

/-- The CSV tokenizer: one pass over the characters, where `st` is 0 at a
field start, 1 inside an unquoted field, 2 inside a quoted field and 3
just after a quote inside a quoted field; `seen` records whether the
current line has any character (so that truly empty lines can be skipped,
as `skip_blank_lines` does); `field`, `row` and `rows` accumulate.
`none` is the parse error on an unterminated quoted field at end of
input. -/
def csvTokAux (st : Nat) (seen : Bool) (field : List Char) (row : List (List Char))
    (rows : List (List (List Char))) : List Char → Option (List (List (List Char)))
  | [] =>
    if st = 2 then none
    else if seen = false ∧ row = [] then some rows
    else some (rows ++ [row ++ [field]])
  | c :: cs =>
    if st = 2 then
      if c = '"' then csvTokAux 3 true field row rows cs
      else csvTokAux 2 true (field ++ [c]) row rows cs
    else if st = 3 ∧ c = '"' then csvTokAux 2 true (field ++ [c]) row rows cs
    else if c = ',' then csvTokAux 0 true [] (row ++ [field]) rows cs
    else if c = '\n' then
      if seen = false ∧ row = [] then csvTokAux 0 false [] [] rows cs
      else csvTokAux 0 false [] [] (rows ++ [row ++ [field]]) cs
    else if st = 0 ∧ c = '"' then csvTokAux 2 true field row rows cs
    else csvTokAux 1 true (field ++ [c]) row rows cs

/-- The rows of fields of a CSV text under pandas' default tokenization,
blank lines skipped; `none` on an unterminated quoted field. -/
def tokenizeCsv (t : String) : Option (List (List String)) :=
  (csvTokAux 0 false [] [] [] t.toList).map (fun rs => rs.map (fun r => r.map List.asString))

/-- A parsed data row, padded with NaN to the table width. -/
def padRow (n : Nat) (fs : List String) : List (Option String) :=
  fs.map some ++ List.replicate (n - fs.length) none

/-- The table width: the header width, widened to the first data row's
width when that row is wider (pandas' implicit-index inference; the extra
leading columns become the index). -/
def csvWidth (m : Nat) (data : List (List String)) : Nat :=
  match data with
  | [] => m
  | r0 :: _ => if r0.length > m then r0.length else m

/-- The strict `pd.read_csv(StringIO(csv_text))`: `none` when it raises
(no data at all, an unterminated quote, or some data row wider than the
table).  The columns are the header fields; each kept row is padded to
the table width and its implicit-index columns are dropped. -/
def parseStrictCsv (t : String) : Option Frame :=
  match tokenizeCsv t with
  | none => none
  | some [] => none
  | some (hdrRow :: data) =>
    let m := hdrRow.length
    let w := csvWidth m data
    if data.all (fun r => r.length ≤ w)
    then some ⟨hdrRow, data.map (fun r => (padRow w r).drop (w - m))⟩
    else none

/-- The fallback `pd.read_csv(..., engine="python", on_bad_lines="skip")`:
the python engine performs the same implicit-index inference and drops
the data rows wider than the table; `none` when there is no data at all
(`EmptyDataError`) or the quoting is unterminated. -/
def parseLenientCsv (t : String) : Option Frame :=
  match tokenizeCsv t with
  | none => none
  | some [] => none
  | some (hdrRow :: data) =>
    let m := hdrRow.length
    let w := csvWidth m data
    some ⟨hdrRow, (data.filter (fun r => r.length ≤ w)).map (fun r => (padRow w r).drop (w - m))⟩

/-- The `try: pd.read_csv ... except: pd.read_csv(..., on_bad_lines="skip")`
of `build_plan`; an `Except.error` is an exception escaping both calls. -/
def readCsvWithFallback (t : String) : Except String Frame :=
  match parseStrictCsv t with
  | some f => .ok f
  | none =>
    match parseLenientCsv t with
    | some f => .ok f
    | none => .error "EmptyDataError or ParserError: no data, or unterminated quote"

/-- Model of `df.columns.get_loc` for one column name. -/
def colIdx (hdr : List String) (c : String) : Option Nat :=
  hdr.findIdx? (fun x => x == c)

def cellAt (row : List (Option String)) (i : Option Nat) : Option String :=
  match i with
  | none => none
  | some j => (row.get? j).join

/-- Model of `df[cols]`: reorder/select columns (callers only pass columns present
in the header). -/
def selectCols (f : Frame) (cols : List String) : Frame :=
  ⟨cols, f.rows.map (fun r => cols.map (fun c => cellAt r (colIdx f.header c)))⟩

/-- Model of `df.fillna("")`. -/
def fillnaFrame (f : Frame) : Frame :=
  ⟨f.header, f.rows.map (fun r => r.map (fun c => some (c.getD "")))⟩

def expectedCols : List String :=
  ["date", "meal_type", "item", "method", "prep", "quantity"]

/-- The normalisation block of `build_plan`: lower/strip the column names,
keep only the expected columns that are present (in the fixed expected
order), `fillna("")`. -/
def normalizeFrame (f : Frame) : Frame :=
  let hdr := f.header.map (fun c => pyLower (pyStrip c))
  let keep := expectedCols.filter (fun c => hdr.contains c)
  fillnaFrame (selectCols ⟨hdr, f.rows⟩ keep)

/-- Model of `df.to_dict(orient="records")` followed by `row.get` per field: a
column absent from the frame yields a missing key (`none`). -/
def frameToRecords (f : Frame) : List RowData :=
  f.rows.map (fun r =>
    let get := fun c => cellAt r (colIdx f.header c)
    ⟨get "date", get "meal_type", get "item", get "method", get "prep", get "quantity"⟩)

/-- Model of `save_plan_to_supabase(df)` on a frame: the source's own
`df.fillna("")` happens before `to_dict`. -/
def savePlanToSupabaseFrame (store : List Row) (df : Frame)
    (deleteErr insertErr : Option String) (ids : Nat → Nat) :
    List Row × BuildResult :=
  savePlanToSupabase store (frameToRecords (fillnaFrame df)) deleteErr insertErr ids

/-- Model of `save_plan_to_excel(df)`: lowercases the columns, `fillna("")`, and
writes `df[["date","meal_type","item","method","prep","quantity"]]` to the
workbook.  `writerErr` models an exception of the Excel writer itself;
indexing a missing column raises a `KeyError`.  Both escape to the caller
(there is no `try` here); on success the written sheet is returned. -/
def savePlanToExcel (df : Frame) (writerErr : Option String) :
    Except String Frame :=
  match writerErr with
  | some e => .error e
  | none =>
    let f := fillnaFrame ⟨df.header.map pyLower, df.rows⟩
    if expectedCols.all (fun c => f.header.contains c)
    then .ok (selectCols f expectedCols)
    else .error "KeyError: missing expected columns"

/-- Model of `build_plan(csv_text)`: strip, parse with fallback, normalise, save to
Excel (an exception there, e.g. the `KeyError`, escapes uncaught:
`Except.error`), save to Supabase, and turn a Supabase error status into a
`warning` result.  On success the produced Excel sheet and the new store
contents are returned alongside the status dict. -/
def buildPlan (csvText : String) (store : List Row) (ids : Nat → Nat)
    (writerErr deleteErr insertErr : Option String) :
    Except String (BuildResult × Frame × List Row) :=
  let t := pyStrip csvText
  match readCsvWithFallback t with
  | .error e => .error e
  | .ok df0 =>
    let df := normalizeFrame df0
    match savePlanToExcel df writerErr with
    | .error e => .error e
    | .ok file =>
      let sres := savePlanToSupabaseFrame store df deleteErr insertErr ids
      if sres.2.status = "error"
      then .ok (⟨"warning", "Excel saved but Supabase update failed: " ++ sres.2.message⟩,
        file, sres.1)
      else .ok (⟨"success", "Plan generated and saved to Excel + Supabase."⟩, file, sres.1)

/-! `_extract_text_from_gemini`, over `List Char` -/

/-- The backtick character. -/
def tick : Char := Char.ofNat 96

/-- Model of `s.startswith("```")`. -/
def startsWithTicks : List Char → Bool
  | a :: b :: c :: _ => a == tick && b == tick && c == tick
  | _ => false

/-- Model of `s.endswith("```")`. -/
def endsWithTicks (l : List Char) : Bool :=
  startsWithTicks l.reverse

/-- Model of `s.split("\n", 1)[1]`: the text after the first newline; `none` is the
`IndexError` raised when the string has no newline. -/
def splitOnceAfterNewline : List Char → Option (List Char)
  | [] => none
  | c :: rest => if c = '\n' then some rest else splitOnceAfterNewline rest

/-- Model of `s.rsplit("\n", 1)[0]`: the text before the last newline, or the whole
string when it has none. -/
def rsplitBeforeNewline (l : List Char) : List Char :=
  match splitOnceAfterNewline l.reverse with
  | none => l
  | some afterRev => afterRev.reverse

/-- The Gemini response shape: an optional direct `text` attribute and the
texts of `candidates[0].content.parts`. -/
structure GeminiResponse where
  text : Option (List Char)
  parts : List (List Char)

/-- Model of `if hasattr(response, "text") and response.text: ... elif ...`: an
empty direct text is falsy and falls through to joining the parts. -/
def responseText (resp : GeminiResponse) : List Char :=
  match resp.text with
  | some t => if t.isEmpty then resp.parts.flatten else t
  | none => resp.parts.flatten

/-- Model of `_extract_text_from_gemini(response)`; `none` is the uncaught
`IndexError` of `split("\n", 1)[1]` on a fence with no newline. -/
def extractTextFromGemini (resp : GeminiResponse) : Option (List Char) :=
  let t := stripChars (responseText resp)
  match (if startsWithTicks t then splitOnceAfterNewline t else some t) with
  | none => none
  | some t1 =>
    let t2 := if endsWithTicks t1 then rsplitBeforeNewline t1 else t1
    some (stripChars t2)

/-! Definitions used by the theorem statements -/

/-- The spec's `DatePartitioner` contract, written with the spec's
ceiling form: `week_key = "week" + ceil(day/7)` (with `⌈n/7⌉ = (n+6)/7`
on naturals) and `day_key` the lowercase full weekday name. -/
def partitionSpec (d : Date) : String × String :=
  ("week" ++ toString ((d.day + 6) / 7), weekdayName (dayOfWeek d))

/-- The `(week_key, day_name)` bucket a row's date is filed under, or
`none` when the date is missing or unparseable. -/
def dateBucket (r : RowData) : Option (String × String) :=
  match r.date with
  | none => none
  | some s =>
    match parseDate s with
    | none => none
    | some d => some ("week" ++ toString ((d.day - 1) / 7 + 1), weekdayName (dayOfWeek d))

/-- Select, from a grouped row, the meal entry iff it was filed under the
given `(week_key, day_name)` cell. -/
def selEntry (wk dk : String) : Option (String × String × MealEntry) → Option MealEntry
  | none => none
  | some (w, d, e) => if w = wk ∧ d = dk then some e else none

/-- A record dated 2024-03-01, a Friday in the first week-of-month bucket. -/
def rowA : RowData :=
  ⟨some "2024-03-01", some "breakfast", some "poha", some "boil", some "soak", some "1 plate"⟩

/-- The same record dated 2024-04-05 — also a Friday in the first
week-of-month bucket, but a different calendar date. -/
def rowB : RowData :=
  { rowA with date := some "2024-04-05" }

/-- A store row whose id is 0: the filtered delete `neq("id", 0)` does not
touch it. -/
def staleRow : Row :=
  ⟨0, ⟨some "2024-03-02", some "lunch", some "rice", none, none, none⟩⟩

/-- A record dated 2024-03-08, a Friday in the second week-of-month bucket. -/
def rowC : RowData :=
  ⟨some "2024-03-08", some "dinner", some "dal", some "simmer", some "soak dal", some "1 bowl"⟩

/-- The same record dated 2024-04-12 — also a Friday in the second
week-of-month bucket. -/
def rowD : RowData :=
  { rowC with date := some "2024-04-12" }

/-- A well-formed one-row CSV body with all six expected columns. -/
def csvSix : String :=
  "date,meal_type,item,method,prep,quantity\n2024-03-01,breakfast,poha,boil,soak,1 plate"

/-- The frame `pd.read_csv` produces from `csvSix`. -/
def frameSix : Frame :=
  ⟨["date", "meal_type", "item", "method", "prep", "quantity"],
    [[some "2024-03-01", some "breakfast", some "poha", some "boil", some "soak", some "1 plate"]]⟩

/-! Lemmas about the nested plan dictionary -/

theorem lookupA_appendDay (dd : DayDict) (dk k : String) (e : MealEntry) :
    lookupA (appendDay dd dk e) k =
      if k = dk then some ((lookupA dd dk).getD [] ++ [e]) else lookupA dd k := by
  induction dd with
  | nil =>
    by_cases h : k = dk
    · subst h; simp [appendDay, lookupA]
    · have h' : ¬ dk = k := fun hh => h hh.symm
      simp [appendDay, lookupA, h, h']
  | cons hd tl ih =>
    obtain ⟨k', es⟩ := hd
    by_cases h1 : k' = dk
    · subst h1
      by_cases h2 : k' = k
      · subst h2; simp [appendDay, lookupA]
      · have h2' : ¬ k = k' := fun hh => h2 hh.symm
        simp [appendDay, lookupA, h2, h2']
    · by_cases h2 : k' = k
      · have hk : ¬ k = dk := fun hh => h1 (h2.trans hh)
        simp [appendDay, lookupA, h1, h2, hk]
      · simp [appendDay, lookupA, h1, h2, ih]

theorem lookupA_appendEntry (p : Plan) (wk k dk : String) (e : MealEntry) :
    lookupA (appendEntry p wk dk e) k =
      if k = wk then some (appendDay ((lookupA p wk).getD []) dk e) else lookupA p k := by
  induction p with
  | nil =>
    by_cases h : k = wk
    · subst h; simp [appendEntry, lookupA, appendDay]
    · have h' : ¬ wk = k := fun hh => h hh.symm
      simp [appendEntry, lookupA, h, h']
  | cons hd tl ih =>
    obtain ⟨k', dd⟩ := hd
    by_cases h1 : k' = wk
    · subst h1
      by_cases h2 : k = k'
      · subst h2; simp [appendEntry, lookupA]
      · have h2' : ¬ k' = k := fun hh => h2 hh.symm
        simp [appendEntry, lookupA, h2, h2']
    · by_cases h2 : k' = k
      · have hk : ¬ k = wk := fun hh => h1 (h2.trans hh)
        simp [appendEntry, lookupA, h1, h2, hk]
      · simp [appendEntry, lookupA, h1, h2, ih]

theorem cellList_appendEntry (p : Plan) (wk dk w d : String) (e : MealEntry) :
    cellList (appendEntry p wk dk e) w d =
      if w = wk ∧ d = dk then cellList p w d ++ [e] else cellList p w d := by
  simp only [cellList, lookupA_appendEntry]
  by_cases h1 : w = wk
  · subst h1
    by_cases h2 : d = dk
    · subst h2
      simp [lookupA_appendDay]
    · simp [lookupA_appendDay, h2]
  · have h1' : ¬ (w = wk ∧ d = dk) := fun hh => h1 hh.1
    simp [h1, h1']

theorem cellList_foldl (rows : List Row) (p : Plan) (wk dk : String) :
    cellList (rows.foldl planStep p) wk dk =
      cellList p wk dk ++ rows.filterMap (fun r => selEntry wk dk (rowBucketEntry r)) := by
  induction rows generalizing p with
  | nil => simp
  | cons r rs ih =>
    simp only [List.foldl_cons, List.filterMap_cons]
    rw [ih]
    cases hr : rowBucketEntry r with
    | none => simp [planStep, hr, selEntry]
    | some wde =>
      obtain ⟨w, d, e⟩ := wde
      simp only [planStep, hr, selEntry]
      rw [cellList_appendEntry]
      by_cases h : w = wk ∧ d = dk
      · obtain ⟨ha, hb⟩ := h
        subst ha; subst hb
        simp
      · have h' : ¬ (wk = w ∧ dk = d) := fun hh => h ⟨hh.1.symm, hh.2.symm⟩
        simp [h, h']

theorem cellList_nil (wk dk : String) : cellList [] wk dk = [] := rfl

theorem cellList_recordsToPlanDict (rows : List Row) (wk dk : String) :
    cellList (recordsToPlanDict rows) wk dk =
      rows.filterMap (fun r => selEntry wk dk (rowBucketEntry r)) := by
  rw [recordsToPlanDict, cellList_foldl, cellList_nil, List.nil_append]

theorem loadPlan_ok (rows : List Row) :
    loadPlan (.ok rows) = recordsToPlanDict rows := by
  simp only [loadPlan]
  cases h : recordsToPlanDict rows with
  | nil => simp [h]
  | cons a l => simp [h]

theorem filterMap_insertRows (ids : Nat → Nat) (i : Nat) (records : List RowData)
    (f : Option (String × String × MealEntry) → Option MealEntry) :
    (insertRows ids i records).filterMap (fun r => f (rowBucketEntry r))
      = records.filterMap (fun r => f (recBucketEntry r)) := by
  induction records generalizing i with
  | nil => rfl
  | cons r rs ih =>
    rw [show insertRows ids i (r :: rs) = ⟨ids i, r⟩ :: insertRows ids (i + 1) rs from rfl,
      List.filterMap_cons, List.filterMap_cons, ih]
    rfl

theorem recBucketEntry_decomp (r : RowData) :
    recBucketEntry r = (dateBucket r).map (fun wd => (wd.1, wd.2, mealEntryOf r)) := by
  cases hd : r.date with
  | none => simp [recBucketEntry, dateBucket, hd]
  | some s => cases hp : parseDate s <;> simp [recBucketEntry, dateBucket, hd, hp]

theorem foldl_planStep_congr (rows rows' : List Row)
    (h : List.Forall₂ (fun r r' => rowBucketEntry r = rowBucketEntry r') rows rows') :
    ∀ p, rows.foldl planStep p = rows'.foldl planStep p := by
  induction h with
  | nil => intro p; rfl
  | @cons a b l1 l2 hab htl ih =>
    intro p
    simp only [List.foldl_cons]
    have hstep : planStep p a = planStep p b := by unfold planStep; rw [hab]
    rw [hstep]
    exact ih _

theorem getPlanForDate_cellOf (d : Date) (plan : Plan) :
    getPlanForDate d plan =
      (cellOf plan ("week" ++ toString ((d.day - 1) / 7 + 1))
        (weekdayName (dayOfWeek d))).getD [] := by
  simp only [getPlanForDate, cellOf]
  cases lookupA plan ("week" ++ toString ((d.day - 1) / 7 + 1)) with
  | none => simp [lookupA]
  | some dd => simp

theorem splitOnceAfterNewline_append (pre rest : List Char) (h : '\n' ∉ pre) :
    splitOnceAfterNewline (pre ++ '\n' :: rest) = some rest := by
  induction pre with
  | nil => simp [splitOnceAfterNewline]
  | cons c cs ih =>
    have hc : ¬ c = '\n' := fun hh => h (List.mem_cons.mpr (Or.inl hh.symm))
    have h' : '\n' ∉ cs := fun hh => h (List.mem_cons_of_mem c hh)
    simp [splitOnceAfterNewline, hc, ih h']

theorem buildPlan_ok_status (c : String) (st : List Row) (f : Nat → Nat)
    (w d i : Option String) (r : BuildResult × Frame × List Row)
    (h : buildPlan c st f w d i = .ok r) :
    r.1.status = "success" ∨ r.1.status = "warning" := by
  simp only [buildPlan] at h
  split at h
  · exact absurd h (by simp)
  · split at h
    · exact absurd h (by simp)
    · split at h
      · injection h with h''
        right; rw [← h'']
      · injection h with h''
        left; rw [← h'']

/-! The claims -/

/-- Claim C1: for every calendar date, the date partitioning maps it to
`week_key = "week" + (((day - 1) // 7) + 1)` — equivalently
`"week" + ceil(day/7)`, with the week number ranging over 1..5 — and
`day_key` = the lowercase full English weekday name; the mapping is a
total function, and both `get_plan_for_date` and the row grouping of
`_records_to_plan_dict` compute exactly this pair. -/
theorem c1_date_partition (d : Date) (h1 : 1 ≤ d.day) (h31 : d.day ≤ 31) :
    partitionSpec d = ("week" ++ toString ((d.day - 1) / 7 + 1), weekdayName (dayOfWeek d))
    ∧ (∀ plan : Plan, getPlanForDate d plan
        = cellList plan (partitionSpec d).1 (partitionSpec d).2)
    ∧ (∀ (r : RowData) (s : String), r.date = some s → parseDate s = some d →
        recBucketEntry r = some ((partitionSpec d).1, (partitionSpec d).2, mealEntryOf r))
    ∧ 1 ≤ (d.day + 6) / 7 ∧ (d.day + 6) / 7 ≤ 5 := by
  have hk : (d.day + 6) / 7 = (d.day - 1) / 7 + 1 := by omega
  refine ⟨?_, ?_, ?_, ?_, ?_⟩
  · simp [partitionSpec, hk]
  · intro plan
    simp [getPlanForDate, cellList, partitionSpec, hk]
  · intro r s hs hp
    simp [recBucketEntry, hs, hp, partitionSpec, hk]
  · omega
  · omega

/-- Witness for C1 at 2024-03-10 (the spec's own example: week2, sunday). -/
theorem c1_date_partition_witness :
    partitionSpec ⟨2024, 3, 10⟩ = ("week2", "sunday")
    ∧ getPlanForDate ⟨2024, 3, 10⟩ []
        = cellList [] (partitionSpec ⟨2024, 3, 10⟩).1 (partitionSpec ⟨2024, 3, 10⟩).2 :=
  ⟨by decide, (c1_date_partition ⟨2024, 3, 10⟩ (by decide) (by decide)).2.1 []⟩

/-- Claim C5: `load_plan` never raises: a fetch failure yields the empty
plan, and each stored row that fails to parse is skipped while every
remaining row appears in the returned plan (the cell contents are exactly
the in-order entries of the rows that parse into that cell). -/
theorem c5_load_plan_resilient (e : String) (rows : List Row) (wk dk : String) :
    loadPlan (.error e) = []
    ∧ cellList (loadPlan (.ok rows)) wk dk
        = rows.filterMap (fun r => selEntry wk dk (rowBucketEntry r)) := by
  refine ⟨rfl, ?_⟩
  rw [loadPlan_ok, cellList_recordsToPlanDict]

/-- Claim C8: `get_plan_for_date` on a date whose cell is absent or empty
returns the empty list (and, being a total function, never raises). -/
theorem c8_missing_cell (d : Date) (plan : Plan)
    (h : cellOf plan ("week" ++ toString ((d.day - 1) / 7 + 1)) (weekdayName (dayOfWeek d)) = none
      ∨ cellOf plan ("week" ++ toString ((d.day - 1) / 7 + 1)) (weekdayName (dayOfWeek d))
          = some []) :
    getPlanForDate d plan = [] := by
  rw [getPlanForDate_cellOf]
  rcases h with h | h <;> simp [h]

/-- Witness for C8: the empty plan has no cell for 2024-03-10. -/
theorem c8_missing_cell_witness : getPlanForDate ⟨2024, 3, 10⟩ [] = [] :=
  c8_missing_cell ⟨2024, 3, 10⟩ [] (Or.inl rfl)

/-- Counterexample to C2 as stated: two single-row inputs that differ in
the row's `date` ("2024-03-01" vs "2024-04-05", both Fridays in the first
week-of-month) produce identical plans after save-then-load, so the
round trip cannot reproduce the `date` field of a row. -/
theorem c2_roundtrip_counterexample :
    rowA.date ≠ rowB.date
    ∧ loadPlan (.ok (savePlanToSupabase [] [rowA] none none (fun i => i + 1)).1)
        = loadPlan (.ok (savePlanToSupabase [] [rowB] none none (fun i => i + 1)).1) := by
  decide

/-- Claim C2 (amended): saving rows with valid ISO dates through
`save_plan_to_supabase` (into a store holding no row with id 0) and
loading with `load_plan` yields a plan whose every cell holds exactly the
`(meal_type, item, method, prep, quantity)` projections of the rows whose
date falls in that cell, in order; the `date` itself is kept only as the
`(week_key, day_key)` bucket, not in the entries. -/
theorem c2_roundtrip_amended (store : List Row) (records : List RowData)
    (ids : Nat → Nat) (wk dk : String)
    (hstore : ∀ r ∈ store, r.id ≠ 0)
    (hvalid : ∀ r ∈ records, ∃ s, r.date = some s ∧ (parseDate s).isSome) :
    cellList (loadPlan (.ok (savePlanToSupabase store records none none ids).1)) wk dk
        = records.filterMap (fun r => selEntry wk dk (recBucketEntry r))
    ∧ ∀ r ∈ records, ∃ w d, recBucketEntry r = some (w, d, mealEntryOf r) := by
  constructor
  · have hfilter : store.filter (fun r => r.id == 0) = [] := by
      rw [List.filter_eq_nil_iff]
      intro a ha
      simpa using hstore a ha
    simp only [savePlanToSupabase, hfilter, List.nil_append]
    rw [loadPlan_ok, cellList_recordsToPlanDict, filterMap_insertRows]
  · intro r hr
    obtain ⟨s, hs, hp⟩ := hvalid r hr
    obtain ⟨d, hd⟩ := Option.isSome_iff_exists.mp hp
    refine ⟨"week" ++ toString ((d.day - 1) / 7 + 1), weekdayName (dayOfWeek d), ?_⟩
    simp [recBucketEntry, hs, hd]

/-- Witness for the amended C2 on a one-row save. -/
theorem c2_roundtrip_amended_witness :
    cellList (loadPlan (.ok (savePlanToSupabase [] [rowA] none none (fun i => i + 1)).1))
        "week1" "friday"
      = [rowA].filterMap (fun r => selEntry "week1" "friday" (recBucketEntry r)) :=
  (c2_roundtrip_amended [] [rowA] (fun i => i + 1) "week1" "friday"
    (by intro r hr; simp at hr)
    (by
      intro r hr
      rw [List.mem_singleton] at hr
      subst hr
      exact ⟨"2024-03-01", rfl, by decide⟩)).1

/-- Claim C9: a loaded entry holds exactly the five meal fields; the
row's date determines only the `(week_key, day_key)` bucket, so two row
lists pairwise equal on the five fields and on the bucket of their dates
(the dates and ids themselves may differ) load to identical plans. -/
theorem c9_date_not_retained (rows rows' : List Row)
    (h : List.Forall₂ (fun r r' =>
        dateBucket r.data = dateBucket r'.data
          ∧ mealEntryOf r.data = mealEntryOf r'.data) rows rows') :
    loadPlan (.ok rows) = loadPlan (.ok rows')
    ∧ ∀ (r : Row) (w d : String) (ent : MealEntry),
        rowBucketEntry r = some (w, d, ent) → ent = mealEntryOf r.data := by
  constructor
  · rw [loadPlan_ok, loadPlan_ok, recordsToPlanDict, recordsToPlanDict]
    apply foldl_planStep_congr
    refine h.imp ?_
    intro a b hab
    rw [rowBucketEntry, rowBucketEntry, recBucketEntry_decomp, recBucketEntry_decomp,
      hab.1, hab.2]
  · intro r w d ent hent
    rw [rowBucketEntry, recBucketEntry_decomp] at hent
    cases hb : dateBucket r.data with
    | none => rw [hb] at hent; exact absurd hent (by simp)
    | some wd =>
      rw [hb] at hent
      have h3 := congrArg (fun x => (Option.map (fun y => y.2.2) x).getD ent) hent
      simpa using h3.symm

/-- Witness for C9: rows dated 2024-03-08 and 2024-04-12 (both Fridays of
a second week-of-month), with different store ids, load identically. -/
theorem c9_date_not_retained_witness :
    loadPlan (.ok [⟨1, rowC⟩]) = loadPlan (.ok [⟨2, rowD⟩]) :=
  (c9_date_not_retained [⟨1, rowC⟩] [⟨2, rowD⟩]
    (List.Forall₂.cons (by decide) List.Forall₂.nil)).1

/-- Counterexample to C4 as stated: the delete step is filtered by
`neq("id", 0)`, so a stored row with id 0 survives the "replace all":
after a successful save of the empty row set the store still holds it. -/
theorem c4_replace_all_counterexample :
    (savePlanToSupabase [staleRow] [] none none (fun i => i + 1)).2.status = "success"
    ∧ (savePlanToSupabase [staleRow] [] none none (fun i => i + 1)).1 = [staleRow] := by
  decide

/-- Claim C4 (amended): `save_plan_to_supabase` deletes every existing
row whose id is nonzero (the delete is filtered by `id ≠ 0`), then
inserts the new set; it returns a status of `success` or `error`, and on
any client failure it returns the error record instead of raising. -/
theorem c4_replace_all_amended (store : List Row) (records : List RowData)
    (deleteErr insertErr : Option String) (ids : Nat → Nat) :
    ((savePlanToSupabase store records deleteErr insertErr ids).2.status = "success"
      ∨ (savePlanToSupabase store records deleteErr insertErr ids).2.status = "error")
    ∧ (deleteErr = none → insertErr = none →
        savePlanToSupabase store records deleteErr insertErr ids
          = (store.filter (fun r => r.id == 0) ++ insertRows ids 0 records,
              ⟨"success", "Inserted " ++ toString records.length ++ " rows into Supabase."⟩))
    ∧ (∀ e, deleteErr = some e ∨ (deleteErr = none ∧ insertErr = some e) →
        (savePlanToSupabase store records deleteErr insertErr ids).2
          = ⟨"error", "Supabase insert failed: " ++ e⟩) := by
  refine ⟨?_, ?_, ?_⟩
  · cases deleteErr <;> cases insertErr <;> simp [savePlanToSupabase]
  · intro h1 h2; subst h1; subst h2; rfl
  · intro e he
    rcases he with he | ⟨hd, hi⟩
    · subst he; rfl
    · subst hd; subst hi; rfl

/-- Witness for the amended C4: a successful save keeps the id-0 row and
appends the insert; a failing delete call reports the error record. -/
theorem c4_replace_all_amended_witness :
    savePlanToSupabase [staleRow] [rowA] none none (fun i => i + 1)
      = ([staleRow, ⟨1, rowA⟩], ⟨"success", "Inserted 1 rows into Supabase."⟩)
    ∧ (savePlanToSupabase [staleRow] [rowA] (some "boom") none (fun i => i + 1)).2
      = ⟨"error", "Supabase insert failed: boom"⟩ := by
  constructor
  · have h := (c4_replace_all_amended [staleRow] [rowA] none none (fun i => i + 1)).2.1 rfl rfl
    rw [h]; decide
  · exact (c4_replace_all_amended [staleRow] [rowA] (some "boom") none
      (fun i => i + 1)).2.2 "boom" (Or.inl rfl)

/-- Claim C3: when the repository write fails but the local spreadsheet
write succeeds, `build_plan` returns status `warning` with a message
containing the repository error text, the spreadsheet file is still
produced, and any record `build_plan` returns has status among
success/warning/error. -/
theorem c3_export_warning (csvText : String) (store : List Row) (ids : Nat → Nat)
    (deleteErr insertErr : Option String) (df0 file : Frame) (m : String)
    (hparse : readCsvWithFallback (pyStrip csvText) = .ok df0)
    (hexcel : savePlanToExcel (normalizeFrame df0) none = .ok file)
    (hsupa : (savePlanToSupabaseFrame store (normalizeFrame df0) deleteErr insertErr ids).2
        = ⟨"error", m⟩) :
    buildPlan csvText store ids none deleteErr insertErr
      = .ok (⟨"warning", "Excel saved but Supabase update failed: " ++ m⟩, file,
          (savePlanToSupabaseFrame store (normalizeFrame df0) deleteErr insertErr ids).1)
    ∧ (∀ (c : String) (st : List Row) (f : Nat → Nat) (w d i : Option String)
          (r : BuildResult × Frame × List Row),
        buildPlan c st f w d i = .ok r →
          r.1.status = "success" ∨ r.1.status = "warning" ∨ r.1.status = "error") := by
  constructor
  · simp only [buildPlan, hparse, hexcel, hsupa]
    simp
  · intro c st f w d i r h
    rcases buildPlan_ok_status c st f w d i r h with h' | h'
    · exact Or.inl h'
    · exact Or.inr (Or.inl h')

set_option maxRecDepth 8192 in
/-- Witness for C3: a six-column CSV, a failing insert call. -/
theorem c3_export_warning_witness :
    buildPlan csvSix [] (fun j => j + 1) none none (some "boom")
      = .ok (⟨"warning", "Excel saved but Supabase update failed: Supabase insert failed: boom"⟩,
          frameSix, []) := by
  have h := (c3_export_warning csvSix [] (fun j => j + 1) none (some "boom") frameSix frameSix
    "Supabase insert failed: boom" (by rfl) (by rfl) (by rfl)).1
  rw [h]
  rfl

/-- CSV text whose first data line is over-full: pandas parses it via
implicit-index inference instead of failing. -/
def csvIdx : String :=
  "date,item\nx,2024-03-01,poha\n2024-03-02,idli"

/-- Counterexample to C6 as stated: when the malformed (over-full) line
is the first data line, `pd.read_csv` does not fail — it infers an
implicit index from the extra leading column and keeps every line — so
the strict parse succeeds (no fallback, nothing dropped) and the
well-formed line "2024-03-02,idli" survives only with shifted content:
its `date` cell becomes "idli" and its original field pair appears
nowhere in the resulting rows. -/
theorem c6_parse_fallback_counterexample :
    parseStrictCsv csvIdx ≠ none
    ∧ readCsvWithFallback csvIdx
        = .ok ⟨["date", "item"], [[some "2024-03-01", some "poha"], [some "idli", none]]⟩
    ∧ [some "2024-03-02", some "idli"]
        ∉ ([[some "2024-03-01", some "poha"], [some "idli", none]]
            : List (List (Option String))) := by
  refine ⟨by decide, by rfl, by decide⟩

/-- Claim C6 (amended): on a CSV whose first data row is no wider than
the header (so pandas infers no implicit index) and whose data contains a
malformed line (more fields than the header), the strict parse fails and
the fallback keeps exactly the lines that fit the header width, in order
and with their content (short lines NaN-padded); a CSV whose first data
line is itself over-full is instead parsed successfully with an implicit
index and nothing is dropped. -/
theorem c6_parse_fallback (t : String) (hdrRow r0 : List String) (rest : List (List String))
    (htok : tokenizeCsv t = some (hdrRow :: r0 :: rest))
    (hfirst : r0.length ≤ hdrRow.length)
    (hbad : ∃ l ∈ r0 :: rest, hdrRow.length < l.length) :
    parseStrictCsv t = none
    ∧ readCsvWithFallback t
        = .ok ⟨hdrRow, ((r0 :: rest).filter (fun r => r.length ≤ hdrRow.length)).map
            (fun r => padRow hdrRow.length r)⟩ := by
  have hgt : ¬ (r0.length > hdrRow.length) := by omega
  have hw : csvWidth hdrRow.length (r0 :: rest) = hdrRow.length := by
    simp [csvWidth, hgt]
  have hall : (r0 :: rest).all (fun r => decide (r.length ≤ hdrRow.length)) = false := by
    rw [List.all_eq_false]
    obtain ⟨l, hmem, hlt⟩ := hbad
    exact ⟨l, hmem, by simpa using hlt⟩
  have hstrict : parseStrictCsv t = none := by
    simp only [parseStrictCsv, htok, hw, hall]
    simp
  refine ⟨hstrict, ?_⟩
  simp only [readCsvWithFallback, hstrict, parseLenientCsv, htok, hw]
  simp

/-- CSV text with one malformed (three-field) line among two-field data,
the first data line being well-formed. -/
def csvBad : String :=
  "date,item\n2024-03-01,poha\nbad,line,extra\n2024-03-02,idli"

/-- Witness for the amended C6 on `csvBad`. -/
theorem c6_parse_fallback_witness :
    parseStrictCsv csvBad = none
    ∧ readCsvWithFallback csvBad
        = .ok ⟨["date", "item"],
            [[some "2024-03-01", some "poha"], [some "2024-03-02", some "idli"]]⟩ := by
  have h := c6_parse_fallback csvBad ["date", "item"] ["2024-03-01", "poha"]
    [["bad", "line", "extra"], ["2024-03-02", "idli"]] (by rfl) (by decide) (by decide)
  refine ⟨h.1, ?_⟩
  rw [h.2]
  rfl

/-- Claim C7: a response whose text is a CSV body wrapped in triple
backtick fences (optionally with a language tag on the opening fence,
optionally surrounded by whitespace) is cleaned to exactly the body, with
surrounding whitespace stripped. -/
theorem c7_fence_strip (raw lang body : List Char)
    (hlang : '\n' ∉ lang)
    (hstrip : stripChars raw
      = tick :: tick :: tick :: (lang ++ '\n' :: (body ++ '\n' :: [tick, tick, tick]))) :
    extractTextFromGemini ⟨some raw, []⟩ = some (stripChars body) := by
  have hne : raw.isEmpty = false := by
    cases raw with
    | nil => exact absurd hstrip (by simp [stripChars])
    | cons c cs => rfl
  have hrt : responseText ⟨some raw, []⟩ = raw := by
    simp [responseText, hne]
  have hpre : '\n' ∉ tick :: tick :: tick :: lang := by
    intro hmem
    simp only [List.mem_cons] at hmem
    rcases hmem with h1 | h1 | h1 | h1
    · exact absurd h1 (by decide)
    · exact absurd h1 (by decide)
    · exact absurd h1 (by decide)
    · exact hlang h1
  have hsplit : splitOnceAfterNewline
      (tick :: tick :: tick :: (lang ++ '\n' :: (body ++ '\n' :: [tick, tick, tick])))
      = some (body ++ '\n' :: [tick, tick, tick]) := by
    have hshape : (tick :: tick :: tick :: lang) ++ '\n' :: (body ++ '\n' :: [tick, tick, tick])
        = tick :: tick :: tick :: (lang ++ '\n' :: (body ++ '\n' :: [tick, tick, tick])) := by
      simp
    rw [← hshape]
    exact splitOnceAfterNewline_append _ _ hpre
  have hsw : startsWithTicks
      (tick :: tick :: tick :: (lang ++ '\n' :: (body ++ '\n' :: [tick, tick, tick]))) = true := by
    simp [startsWithTicks]
  have hends : endsWithTicks (body ++ '\n' :: [tick, tick, tick]) = true := by
    unfold endsWithTicks
    rw [List.reverse_append]
    have hrev : ('\n' :: [tick, tick, tick]).reverse = tick :: tick :: tick :: ['\n'] := rfl
    rw [hrev]
    simp [startsWithTicks]
  have hrsplit : rsplitBeforeNewline (body ++ '\n' :: [tick, tick, tick]) = body := by
    unfold rsplitBeforeNewline
    rw [List.reverse_append]
    have hrev : ('\n' :: [tick, tick, tick]).reverse = tick :: tick :: tick :: ['\n'] := rfl
    rw [hrev]
    have hshape : (tick :: tick :: tick :: ['\n']) ++ body.reverse
        = ([tick, tick, tick] : List Char) ++ '\n' :: body.reverse := rfl
    rw [hshape, splitOnceAfterNewline_append [tick, tick, tick] body.reverse (by decide)]
    simp
  simp only [extractTextFromGemini, hrt, hstrip, hsw, if_true, hsplit, hends, hrsplit]

/-- Witness for C7: a fenced CSV body with a `csv` language tag. -/
theorem c7_fence_strip_witness :
    extractTextFromGemini ⟨some ("```csv\na,b\n1,2\n```".toList), []⟩
      = some (stripChars "a,b\n1,2".toList) :=
  c7_fence_strip ("```csv\na,b\n1,2\n```".toList) ("csv".toList) ("a,b\n1,2".toList)
    (by decide) (by decide)

/-- Claim C10: a CSV whose header lacks one of the six expected columns
makes `build_plan` end in the uncaught `KeyError` of the spreadsheet
write (which indexes all six columns after `build_plan` filtered the
frame to the columns present) instead of returning a status record. -/
theorem c10_missing_column_keyerror :
    buildPlan "meal_type,item\nbreakfast,poha" [] (fun j => j + 1) none none none
      = .error "KeyError: missing expected columns" := rfl

end MealPlanner
